/-
  Verification of the Kawaii K50V additive synthesizer engine
  (KawaiiVoice.h, KawaiiProcessor.cpp/.h, KawaiiCids.h, KawaiiParams.h,
  MetalSineBank.h).

  Shallow embedding conventions:
  * C++ `double`/`float` state is modelled over an arbitrary linear ordered
    field `α` (instantiated with `ℚ` for executable witnesses and with `ℝ`
    where analytic facts such as `Real.exp` bounds are needed).  Float
    rounding is abstracted where a claim is about it (state serialization).
  * The C math library calls (`sin`, `tan`, `exp`, `pow`) are external to
    the repository; they are passed in as a bundle of function parameters
    (`MathFns`), exactly at the call sites where the source calls libm.
  * Mutating methods become functions from the receiver to (result × new
    receiver); loops become structural recursion over index lists.
  * `std::array<T, N>` becomes `Fin N → T` (or a `List` with a length
    hypothesis where the source pairs the array with an element count).
-/
import Mathlib

namespace Kawaii

/-- KawaiiCids.h: `static constexpr int kMaxPartials = 32`. -/
def kMaxPartials : ℕ := 32

/-- KawaiiCids.h: `static constexpr int kMaxVoices = 6`. -/
def kMaxVoices : ℕ := 6

/-- KawaiiCids.h: `static constexpr int kPartialParamBase = 2`. -/
def kPartialParamBase : ℕ := 2

/-- KawaiiCids.h: `static constexpr int kPartialParamStride = 5`. -/
def kPartialParamStride : ℕ := 5

/-- KawaiiCids.h: offsets within each partial's 5-param block. -/
def kPartialOffLevel : ℕ := 0

def kPartialOffAttack : ℕ := 1

def kPartialOffDecay : ℕ := 2

def kPartialOffSustain : ℕ := 3

def kPartialOffRelease : ℕ := 4

/-- KawaiiCids.h: `partialParam(partial, offset)`. -/
def partialParam (p off : ℕ) : ℕ := kPartialParamBase + p * kPartialParamStride + off

/-- KawaiiCids.h: `kFilterParamBase = kPartialParamBase + kMaxPartials * kPartialParamStride`. -/
def kFilterParamBase : ℕ := kPartialParamBase + kMaxPartials * kPartialParamStride

/-- KawaiiCids.h: number of discrete filter types. -/
def kNumFilterTypes : ℕ := 4

/-- KawaiiCids.h: parameter ids. -/
def kParamMasterVolume : ℕ := 0

def kParamMasterTune : ℕ := 1

def kParamFilterType : ℕ := kFilterParamBase

def kParamFilterCutoff : ℕ := kFilterParamBase + 1

def kParamFilterReso : ℕ := kFilterParamBase + 2

def kParamFilterEnvAtk : ℕ := kFilterParamBase + 3

def kParamFilterEnvDec : ℕ := kFilterParamBase + 4

def kParamFilterEnvSus : ℕ := kFilterParamBase + 5

def kParamFilterEnvRel : ℕ := kFilterParamBase + 6

def kParamFilterEnvDep : ℕ := kFilterParamBase + 7

def kParamFilterKeytrk : ℕ := kFilterParamBase + 8

/-- KawaiiCids.h: `kNumParams = kFilterParamBase + 9` (= 171). -/
def kNumParams : ℕ := kFilterParamBase + 9

/-- The C math library functions the engine calls (`std::sin`, `std::tan`,
`std::exp`, `std::pow`) together with the constant `M_PI`.  They are external
to the repository, so the embedding takes them as parameters; theorems that
need their analytic properties instantiate them with `Real.sin` etc. -/
structure MathFns (α : Type) where
  sinF : α → α
  tanF : α → α
  expF : α → α
  powF : α → α → α
  piC : α

variable {α : Type}

/-- `std::clamp(x, lo, hi)`: `lo` if `x < lo`, `hi` if `hi < x`, else `x`. -/
def cppClamp [LinearOrder α] (x lo hi : α) : α :=
  if x < lo then lo else if hi < x then hi else x

/-- `static_cast<int>(x)` on a floating value: truncation toward zero. -/
def cppTrunc [LinearOrderedField α] [FloorRing α] (x : α) : ℤ :=
  if x < 0 then -⌊-x⌋ else ⌊x⌋

/-- KawaiiVoice.h: `ADSREnvelope::Stage`. -/
inductive Stage where
  | Attack
  | Decay
  | Sustain
  | Release
  | Idle
deriving DecidableEq, Repr

/-- KawaiiVoice.h: the ADSR envelope state (class `ADSREnvelope`). -/
structure ADSREnvelope (α : Type) where
  stage : Stage
  currentValue : α
  attackCoeff : α
  decayCoeff : α
  releaseCoeff : α
  sustainLevel : α
  sampleRate : α
deriving DecidableEq, Repr

/-- `ADSREnvelope::kAttackTarget = 1.5`. -/
def kAttackTarget [LinearOrderedField α] : α := 3 / 2

/-- `ADSREnvelope::kSilenceThreshold = 0.001`. -/
def kSilenceThreshold [LinearOrderedField α] : α := 1 / 1000

/-- The `ADSREnvelope()` constructor state. -/
def ADSREnvelope.initial [LinearOrderedField α] : ADSREnvelope α :=
  { stage := Stage.Idle, currentValue := 0
    attackCoeff := 1 / 100, decayCoeff := 1 / 100, releaseCoeff := 1 / 100
    sustainLevel := 7 / 10, sampleRate := 44100 }

/-- `ADSREnvelope::setSampleRate`. -/
def ADSREnvelope.setSampleRate (sr : α) (e : ADSREnvelope α) : ADSREnvelope α :=
  { e with sampleRate := sr }

/-- `ADSREnvelope::setAttack`: `coeff = 1 - exp(-1/(max(0.001, s) * sampleRate))`. -/
def ADSREnvelope.setAttack [LinearOrderedField α] (expF : α → α) (seconds : α)
    (e : ADSREnvelope α) : ADSREnvelope α :=
  let s := max (1 / 1000) seconds
  { e with attackCoeff := 1 - expF (-(1 / (s * e.sampleRate))) }

/-- `ADSREnvelope::setDecay`. -/
def ADSREnvelope.setDecay [LinearOrderedField α] (expF : α → α) (seconds : α)
    (e : ADSREnvelope α) : ADSREnvelope α :=
  let s := max (1 / 1000) seconds
  { e with decayCoeff := 1 - expF (-(1 / (s * e.sampleRate))) }

/-- `ADSREnvelope::setSustain`: clamps the level into [0, 1]. -/
def ADSREnvelope.setSustain [LinearOrderedField α] (level : α)
    (e : ADSREnvelope α) : ADSREnvelope α :=
  { e with sustainLevel := cppClamp level 0 1 }

/-- `ADSREnvelope::setRelease`: `coeff = 1 - exp(-1/(max(0.001, s) * sampleRate))`. -/
def ADSREnvelope.setRelease [LinearOrderedField α] (expF : α → α) (seconds : α)
    (e : ADSREnvelope α) : ADSREnvelope α :=
  let s := max (1 / 1000) seconds
  { e with releaseCoeff := 1 - expF (-(1 / (s * e.sampleRate))) }

/-- `ADSREnvelope::noteOn() { stage = Attack; }` — the current value is kept. -/
def ADSREnvelope.noteOn (e : ADSREnvelope α) : ADSREnvelope α :=
  { e with stage := Stage.Attack }

/-- `ADSREnvelope::noteOff() { if (stage != Idle) stage = Release; }`. -/
def ADSREnvelope.noteOff (e : ADSREnvelope α) : ADSREnvelope α :=
  if e.stage = Stage.Idle then e else { e with stage := Stage.Release }

/-- `ADSREnvelope::process()`: advance one sample, returning the new value
and the new envelope state. -/
def ADSREnvelope.process [LinearOrderedField α] (e : ADSREnvelope α) :
    α × ADSREnvelope α :=
  match e.stage with
  | Stage.Attack =>
      let v := e.currentValue + (kAttackTarget - e.currentValue) * e.attackCoeff
      if 1 ≤ v then (1, { e with currentValue := 1, stage := Stage.Decay })
      else (v, { e with currentValue := v })
  | Stage.Decay =>
      let v := e.currentValue + (e.sustainLevel - e.currentValue) * e.decayCoeff
      if |v - e.sustainLevel| < kSilenceThreshold then
        (e.sustainLevel, { e with currentValue := e.sustainLevel, stage := Stage.Sustain })
      else (v, { e with currentValue := v })
  | Stage.Sustain => (e.sustainLevel, { e with currentValue := e.sustainLevel })
  | Stage.Release =>
      let v := e.currentValue + (0 - e.currentValue) * e.releaseCoeff
      if v ≤ kSilenceThreshold then (0, { e with currentValue := 0, stage := Stage.Idle })
      else (v, { e with currentValue := v })
  | Stage.Idle => (0, { e with currentValue := 0 })

/-- `ADSREnvelope::isActive(): stage != Idle`. -/
def ADSREnvelope.isActive (e : ADSREnvelope α) : Bool := e.stage ≠ Stage.Idle

/-- `ADSREnvelope::reset()`. -/
def ADSREnvelope.reset [LinearOrderedField α] (e : ADSREnvelope α) : ADSREnvelope α :=
  { e with stage := Stage.Idle, currentValue := 0 }

/-- `process()` iterated `n` times (discarding the produced values). -/
def ADSREnvelope.processIter [LinearOrderedField α] :
    ℕ → ADSREnvelope α → ADSREnvelope α
  | 0, e => e
  | n + 1, e => ADSREnvelope.processIter n (e.process).2

/-- `process()` iterated `n` times, collecting the produced values in order
(the per-sample ADSR pre-computation loop of `processBlockGPU` Phase 1). -/
def ADSREnvelope.processN [LinearOrderedField α] :
    ℕ → ADSREnvelope α → List α × ADSREnvelope α
  | 0, e => ([], e)
  | n + 1, e =>
      let (v, e') := e.process
      let (vs, e'') := ADSREnvelope.processN n e'
      (v :: vs, e'')

/-- KawaiiVoice.h: class `ParamSmoother`. -/
structure ParamSmoother (α : Type) where
  current : α
  target : α
  coeff : α
deriving DecidableEq, Repr

/-- The `ParamSmoother(initial)` constructor. -/
def ParamSmoother.initial [LinearOrderedField α] (i : α) : ParamSmoother α :=
  { current := i, target := i, coeff := 1 / 100 }

/-- `ParamSmoother::setSampleRate`: `coeff = 1 - exp(-2π/(0.005*sr))`. -/
def ParamSmoother.setSampleRate [LinearOrderedField α] (expF : α → α) (piC sr : α)
    (p : ParamSmoother α) : ParamSmoother α :=
  let timeSamples := (5 / 1000) * sr
  { p with coeff := 1 - expF (-(2 * piC) / timeSamples) }

/-- `ParamSmoother::setTarget`. -/
def ParamSmoother.setTarget (t : α) (p : ParamSmoother α) : ParamSmoother α :=
  { p with target := t }

/-- `ParamSmoother::process()`: one exponential step toward the target. -/
def ParamSmoother.process [LinearOrderedField α] (p : ParamSmoother α) :
    α × ParamSmoother α :=
  let c := p.current + (p.target - p.current) * p.coeff
  (c, { p with current := c })

/-- `ParamSmoother::snap()`. -/
def ParamSmoother.snap (p : ParamSmoother α) : ParamSmoother α :=
  { p with current := p.target }

/-- KawaiiVoice.h: `CytomicSVF::Mode`. -/
inductive SVFMode where
  | LP
  | HP
  | BP
  | Notch
  | Peak
  | Allpass
  | Bell
  | LowShelf
  | HighShelf
deriving DecidableEq, Repr

/-- KawaiiVoice.h: class `CytomicSVF` (scalar double-precision ZDF SVF). -/
structure CytomicSVF (α : Type) where
  ic1eq : α
  ic2eq : α
  g : α
  k : α
  gk : α
  a1 : α
  a2 : α
  a3 : α
  m0 : α
  m1 : α
  m2 : α
  da1 : α
  da2 : α
  da3 : α
  dm0 : α
  dm1 : α
  dm2 : α
  firstBlock : Bool
deriving DecidableEq, Repr

/-- The `CytomicSVF()` constructor state. -/
def CytomicSVF.initial [LinearOrderedField α] : CytomicSVF α :=
  { ic1eq := 0, ic2eq := 0, g := 0, k := 2, gk := 2
    a1 := 0, a2 := 0, a3 := 0, m0 := 0, m1 := 0, m2 := 1
    da1 := 0, da2 := 0, da3 := 0, dm0 := 0, dm1 := 0, dm2 := 0
    firstBlock := true }

/-- `CytomicSVF::setMixCoeffs`: output-mix coefficients per mode (reads the
already-updated damping `k`). -/
def CytomicSVF.setMixCoeffs [LinearOrderedField α] (mode : SVFMode)
    (bellShelfAmp : α) (f : CytomicSVF α) : CytomicSVF α :=
  match mode with
  | SVFMode.LP => { f with m0 := 0, m1 := 0, m2 := 1 }
  | SVFMode.BP => { f with m0 := 0, m1 := 1, m2 := 0 }
  | SVFMode.HP => { f with m0 := 1, m1 := -f.k, m2 := -1 }
  | SVFMode.Notch => { f with m0 := 1, m1 := -f.k, m2 := 0 }
  | SVFMode.Peak => { f with m0 := 1, m1 := -f.k, m2 := -2 }
  | SVFMode.Allpass => { f with m0 := 1, m1 := -2 * f.k, m2 := 0 }
  | SVFMode.Bell =>
      { f with m0 := 1, m1 := f.k * (bellShelfAmp * bellShelfAmp - 1), m2 := 0 }
  | SVFMode.LowShelf =>
      { f with m0 := 1, m1 := f.k * (bellShelfAmp - 1)
               m2 := bellShelfAmp * bellShelfAmp - 1 }
  | SVFMode.HighShelf =>
      { f with m0 := bellShelfAmp * bellShelfAmp
               m1 := f.k * (1 - bellShelfAmp) * bellShelfAmp
               m2 := 1 - bellShelfAmp * bellShelfAmp }

/-- `CytomicSVF::setCoeff`: immediate coefficient computation from frequency,
resonance and mode (`g = tan(π·conorm)`, `k = 2 - 2·res`). -/
def CytomicSVF.setCoeff [LinearOrderedField α] (M : MathFns α) (mode : SVFMode)
    (freq res srInv bellShelfAmp : α) (f : CytomicSVF α) : CytomicSVF α :=
  let conorm := cppClamp (freq * srInv) 0 (499 / 1000)
  let res := cppClamp res 0 (98 / 100)
  let bsa := max bellShelfAmp (1 / 1000)
  let g := M.tanF (M.piC * conorm)
  let k := 2 - 2 * res
  let k := if mode = SVFMode.Bell then k / bsa else k
  let gk := g + k
  let a1 := 1 / (1 + g * gk)
  let a2 := g * a1
  let a3 := g * a2
  CytomicSVF.setMixCoeffs mode bsa
    { f with g := g, k := k, gk := gk, a1 := a1, a2 := a2, a3 := a3 }

/-- `CytomicSVF::setCoeffForBlock`: compute target coefficients, then per-sample
linear deltas from the prior coefficients (snapping on the first block). -/
def CytomicSVF.setCoeffForBlock [LinearOrderedField α] (M : MathFns α)
    (mode : SVFMode) (freq res srInv : α) (blockSize : ℕ) (bellShelfAmp : α)
    (f : CytomicSVF α) : CytomicSVF α :=
  let t := f.setCoeff M mode freq res srInv bellShelfAmp
  let (a1p, a2p, a3p, m0p, m1p, m2p, t) :=
    if t.firstBlock then
      (t.a1, t.a2, t.a3, t.m0, t.m1, t.m2, { t with firstBlock := false })
    else (f.a1, f.a2, f.a3, f.m0, f.m1, f.m2, t)
  let inv := 1 / (blockSize : α)
  { t with
    da1 := (t.a1 - a1p) * inv, da2 := (t.a2 - a2p) * inv, da3 := (t.a3 - a3p) * inv
    dm0 := (t.m0 - m0p) * inv, dm1 := (t.m1 - m1p) * inv, dm2 := (t.m2 - m2p) * inv
    a1 := a1p, a2 := a2p, a3 := a3p, m0 := m0p, m1 := m1p, m2 := m2p }

/-- `CytomicSVF::step`: one trapezoidal integration update. -/
def CytomicSVF.step [LinearOrderedField α] (vin : α) (f : CytomicSVF α) :
    α × CytomicSVF α :=
  let v3 := vin - f.ic2eq
  let v1 := f.a1 * f.ic1eq + f.a2 * v3
  let v2 := f.ic2eq + f.a2 * f.ic1eq + f.a3 * v3
  (f.m0 * vin + f.m1 * v1 + f.m2 * v2,
   { f with ic1eq := 2 * v1 - f.ic1eq, ic2eq := 2 * v2 - f.ic2eq })

/-- `CytomicSVF::processBlockStep`: one `step` plus a linear coefficient advance. -/
def CytomicSVF.processBlockStep [LinearOrderedField α] (vin : α)
    (f : CytomicSVF α) : α × CytomicSVF α :=
  let (out, f) := f.step vin
  (out,
   { f with a1 := f.a1 + f.da1, a2 := f.a2 + f.da2, a3 := f.a3 + f.da3
            m0 := f.m0 + f.dm0, m1 := f.m1 + f.dm1, m2 := f.m2 + f.dm2 })

/-- `CytomicSVF::init()`. -/
def CytomicSVF.init [LinearOrderedField α] (f : CytomicSVF α) : CytomicSVF α :=
  { f with ic1eq := 0, ic2eq := 0, firstBlock := true }

/-- KawaiiVoice.h: struct `Partial` — one sine oscillator with its own level
and ADSR envelope. -/
structure Partial (α : Type) where
  phase : α
  frequency : α
  level : α
  envelope : ADSREnvelope α
deriving DecidableEq, Repr

/-- The `Partial` default member initializers. -/
def Partial.initial [LinearOrderedField α] : Partial α :=
  { phase := 0, frequency := 0, level := 1, envelope := ADSREnvelope.initial }

/-- `Partial::process(sampleRate)`: short-circuit when the envelope is idle;
otherwise advance the envelope, emit `sin(2π·phase)·level·env`, and advance
the phase by `frequency/sampleRate`, subtracting 1 when it reaches 1. -/
def Partial.process [LinearOrderedField α] (M : MathFns α) (sampleRate : α)
    (p : Partial α) : α × Partial α :=
  if p.envelope.isActive then
    let (envValue, env') := p.envelope.process
    let output := M.sinF (2 * M.piC * p.phase) * p.level * envValue
    let ph := p.phase + p.frequency / sampleRate
    let ph := if 1 ≤ ph then ph - 1 else ph
    (output, { p with envelope := env', phase := ph })
  else (0, p)

/-- `Partial::reset()`: zero the phase and reset the envelope. -/
def Partial.reset [LinearOrderedField α] (p : Partial α) : Partial α :=
  { p with phase := 0, envelope := p.envelope.reset }

/-- KawaiiCids.h: `enum FilterType` (the 4 UI filter types). -/
inductive FilterType where
  | LP
  | HP
  | BP
  | Notch
deriving DecidableEq, Repr

/-- `static_cast<FilterType>` on an int already clamped into [0, 3]. -/
def FilterType.ofInt (n : ℤ) : FilterType :=
  if n = 0 then FilterType.LP
  else if n = 1 then FilterType.HP
  else if n = 2 then FilterType.BP
  else if n = 3 then FilterType.Notch
  else FilterType.LP

/-- KawaiiVoice.h: class `KawaiiVoice` — 32 partials, one SVF filter, one
filter envelope, two parameter smoothers. -/
structure KawaiiVoice (α : Type) where
  noteNumber : ℤ
  velocity : α
  sampleRate : α
  srInv : α
  partials : Fin kMaxPartials → Partial α
  filter : CytomicSVF α
  filterEnvelope : ADSREnvelope α
  cutoffSmoother : ParamSmoother α
  resoSmoother : ParamSmoother α
  filterEnvDepth : α
  filterKeytrack : α
  filterMode : SVFMode

/-- The `KawaiiVoice()` constructor state. -/
def KawaiiVoice.initial [LinearOrderedField α] : KawaiiVoice α :=
  { noteNumber := -1, velocity := 0, sampleRate := 44100, srInv := 1 / 44100
    partials := fun _ => Partial.initial
    filter := CytomicSVF.initial
    filterEnvelope := ADSREnvelope.initial
    cutoffSmoother := ParamSmoother.initial 1
    resoSmoother := ParamSmoother.initial 0
    filterEnvDepth := 0, filterKeytrack := 0
    filterMode := SVFMode.LP }

/-- `KawaiiVoice::setSampleRate`. -/
def KawaiiVoice.setSampleRate [LinearOrderedField α] (M : MathFns α) (sr : α)
    (v : KawaiiVoice α) : KawaiiVoice α :=
  { v with
    sampleRate := sr, srInv := 1 / sr
    partials := fun i => { v.partials i with
      envelope := (v.partials i).envelope.setSampleRate sr }
    filterEnvelope := v.filterEnvelope.setSampleRate sr
    cutoffSmoother := v.cutoffSmoother.setSampleRate M.expF M.piC sr
    resoSmoother := v.resoSmoother.setSampleRate M.expF M.piC sr }

/-- `KawaiiVoice::noteOn(note, vel)`: assign note identity, compute the
harmonic series (zeroed at/above Nyquist), zero every partial's phase,
retrigger every partial envelope and the filter envelope, clear the filter
integrators, snap both smoothers. -/
def KawaiiVoice.noteOn [LinearOrderedField α] (M : MathFns α) (note : ℤ) (vel : α)
    (v : KawaiiVoice α) : KawaiiVoice α :=
  let fundamental := 440 * M.powF 2 (((note : α) - 69) / 12)
  let nyquist := v.sampleRate / 2
  { v with
    noteNumber := note, velocity := vel
    partials := fun i =>
      let freq := fundamental * (((i : ℕ) : α) + 1)
      { v.partials i with
        frequency := if freq < nyquist then freq else 0
        phase := 0
        envelope := (v.partials i).envelope.noteOn }
    filterEnvelope := v.filterEnvelope.noteOn
    filter := v.filter.init
    cutoffSmoother := v.cutoffSmoother.snap
    resoSmoother := v.resoSmoother.snap }

/-- `KawaiiVoice::noteOff()`: forward release to every partial envelope and
the filter envelope. -/
def KawaiiVoice.noteOff (v : KawaiiVoice α) : KawaiiVoice α :=
  { v with
    partials := fun i => { v.partials i with envelope := (v.partials i).envelope.noteOff }
    filterEnvelope := v.filterEnvelope.noteOff }

/-- `KawaiiVoice::isActive()`: some partial envelope is not idle. -/
def KawaiiVoice.isActive (v : KawaiiVoice α) : Bool :=
  (List.finRange kMaxPartials).any fun i => (v.partials i).envelope.isActive

/-- `KawaiiVoice::computeEffectiveCutoff(smoothedNorm, envValue)`:
`clamp(20·1000^norm + envDepth·env·10000 + keytrack·(note − 60)·100, 20, 20000)`. -/
def KawaiiVoice.computeEffectiveCutoff [LinearOrderedField α] (M : MathFns α)
    (smoothedNorm envValue : α) (v : KawaiiVoice α) : α :=
  let baseCutoffHz := 20 * M.powF 1000 smoothedNorm
  let envMod := v.filterEnvDepth * envValue * 10000
  let keyMod := v.filterKeytrack * (((v.noteNumber : α)) - 60) * 100
  cppClamp (baseCutoffHz + envMod + keyMod) 20 20000

/-- Left-to-right summation of all partials (the partial loop of
`KawaiiVoice::process`). -/
def KawaiiVoice.sumPartialsAux [LinearOrderedField α] (M : MathFns α) (sr : α) :
    List (Fin kMaxPartials) → α → (Fin kMaxPartials → Partial α) →
      α × (Fin kMaxPartials → Partial α)
  | [], acc, ps => (acc, ps)
  | i :: is, acc, ps =>
      let (out, p') := (ps i).process M sr
      KawaiiVoice.sumPartialsAux M sr is (acc + out) (Function.update ps i p')

/-- `KawaiiVoice::process`: CPU path — sum the partials, scale by
`velocity / kMaxPartials`, advance the filter envelope and smoothers, update
filter coefficients immediately, run one filter step, duplicate to stereo. -/
def KawaiiVoice.process [LinearOrderedField α] (M : MathFns α)
    (v : KawaiiVoice α) : (α × α) × KawaiiVoice α :=
  let (sum, ps) :=
    KawaiiVoice.sumPartialsAux M v.sampleRate (List.finRange kMaxPartials) 0 v.partials
  let sample := sum * v.velocity / (kMaxPartials : α)
  let (envValue, fe) := v.filterEnvelope.process
  let (smoothedNorm, cs) := v.cutoffSmoother.process
  let (smoothedReso, rs) := v.resoSmoother.process
  let cutoffHz := v.computeEffectiveCutoff M smoothedNorm envValue
  let res := cppClamp smoothedReso 0 (98 / 100)
  let f1 := v.filter.setCoeff M v.filterMode cutoffHz res v.srInv 1
  let (sample, f2) := f1.step sample
  ((sample, sample),
   { v with partials := ps, filterEnvelope := fe, cutoffSmoother := cs
            resoSmoother := rs, filter := f2 })

/-- `KawaiiVoice::setFilterCutoffNorm`. -/
def KawaiiVoice.setFilterCutoffNorm (norm : α) (v : KawaiiVoice α) : KawaiiVoice α :=
  { v with cutoffSmoother := v.cutoffSmoother.setTarget norm }

/-- `KawaiiVoice::setFilterResonance`. -/
def KawaiiVoice.setFilterResonance (res : α) (v : KawaiiVoice α) : KawaiiVoice α :=
  { v with resoSmoother := v.resoSmoother.setTarget res }

/-- `KawaiiVoice::setFilterEnvDepth`. -/
def KawaiiVoice.setFilterEnvDepth (depth : α) (v : KawaiiVoice α) : KawaiiVoice α :=
  { v with filterEnvDepth := depth }

/-- `KawaiiVoice::setFilterKeytrack`. -/
def KawaiiVoice.setFilterKeytrack (amt : α) (v : KawaiiVoice α) : KawaiiVoice α :=
  { v with filterKeytrack := amt }

/-- `KawaiiVoice::setFilterType`: map the 4 UI filter types to SVF modes. -/
def KawaiiVoice.setFilterType (t : FilterType) (v : KawaiiVoice α) : KawaiiVoice α :=
  { v with filterMode :=
      match t with
      | FilterType.LP => SVFMode.LP
      | FilterType.HP => SVFMode.HP
      | FilterType.BP => SVFMode.BP
      | FilterType.Notch => SVFMode.Notch }

/-- `KawaiiVoice::setFilterEnvAttack`. -/
def KawaiiVoice.setFilterEnvAttack [LinearOrderedField α] (expF : α → α) (sec : α)
    (v : KawaiiVoice α) : KawaiiVoice α :=
  { v with filterEnvelope := v.filterEnvelope.setAttack expF sec }

/-- `KawaiiVoice::setFilterEnvDecay`. -/
def KawaiiVoice.setFilterEnvDecay [LinearOrderedField α] (expF : α → α) (sec : α)
    (v : KawaiiVoice α) : KawaiiVoice α :=
  { v with filterEnvelope := v.filterEnvelope.setDecay expF sec }

/-- `KawaiiVoice::setFilterEnvSustain`. -/
def KawaiiVoice.setFilterEnvSustain [LinearOrderedField α] (lvl : α)
    (v : KawaiiVoice α) : KawaiiVoice α :=
  { v with filterEnvelope := v.filterEnvelope.setSustain lvl }

/-- `KawaiiVoice::setFilterEnvRelease`. -/
def KawaiiVoice.setFilterEnvRelease [LinearOrderedField α] (expF : α → α) (sec : α)
    (v : KawaiiVoice α) : KawaiiVoice α :=
  { v with filterEnvelope := v.filterEnvelope.setRelease expF sec }

/-- `KawaiiVoice::prepareFilterBlock`: sub-block coefficient interpolation setup. -/
def KawaiiVoice.prepareFilterBlock [LinearOrderedField α] (M : MathFns α)
    (cutoffHz res : α) (blockSize : ℕ) (v : KawaiiVoice α) : KawaiiVoice α :=
  { v with
    filter :=
      v.filter.setCoeffForBlock M v.filterMode cutoffHz (cppClamp res 0 (98 / 100))
        v.srInv blockSize 1 }

/-- `KawaiiVoice::filterBlockStep`. -/
def KawaiiVoice.filterBlockStep [LinearOrderedField α] (sample : α)
    (v : KawaiiVoice α) : α × KawaiiVoice α :=
  let (out, f) := v.filter.processBlockStep sample
  (out, { v with filter := f })

/-- VST3 note events as the engine sees them (`Event::kNoteOnEvent` /
`Event::kNoteOffEvent` with pitch and velocity). -/
inductive KEvent (α : Type) where
  | noteOn (pitch : ℤ) (velocity : α)
  | noteOff (pitch : ℤ)

/-- The note-off loop shared by explicit note-offs and velocity-0 note-ons:
forward `noteOff()` to every active voice whose note number matches. -/
def noteOffMatching (pitch : ℤ) (voices : Fin kMaxVoices → KawaiiVoice α) :
    Fin kMaxVoices → KawaiiVoice α :=
  fun i =>
    if (voices i).noteNumber = pitch ∧ (voices i).isActive then (voices i).noteOff
    else voices i

/-- The voice-allocation scan of `KawaiiProcessor::processEvent`: first voice
with `!isActive()`, walking the list of indices in order. -/
def firstInactive (voices : Fin kMaxVoices → KawaiiVoice α) :
    List (Fin kMaxVoices) → Option (Fin kMaxVoices)
  | [] => none
  | i :: is => if (voices i).isActive then firstInactive voices is else some i

/-- The allocation target of `processEvent`: the first inactive voice, else
voice index 0 (unconditional steal). -/
def allocateVoice (voices : Fin kMaxVoices → KawaiiVoice α) : Fin kMaxVoices :=
  (firstInactive voices (List.finRange kMaxVoices)).getD ⟨0, by decide⟩

/-- `KawaiiProcessor::processEvent`. -/
def processEvent [LinearOrderedField α] (M : MathFns α) (e : KEvent α)
    (voices : Fin kMaxVoices → KawaiiVoice α) : Fin kMaxVoices → KawaiiVoice α :=
  match e with
  | KEvent.noteOn pitch vel =>
      if vel = 0 then noteOffMatching pitch voices
      else
        let t := allocateVoice voices
        Function.update voices t ((voices t).noteOn M pitch vel)
  | KEvent.noteOff pitch => noteOffMatching pitch voices

/-- MetalSineBank.h `struct OscillatorParams` together with the per-oscillator
slice of the `envValues` buffer (`envValues[osc * numSamples + s]`); the flat
buffer with manual offsets is represented as a nested list. -/
structure OscSub (α : Type) where
  phaseStart : α
  phaseInc : α
  level : α
  envVals : List α

/-- MetalSineBank.h `struct VoiceDescriptor` together with the oscillator
range it addresses (`startOsc`/`numOsc` become the nesting). -/
structure VoiceSub (α : Type) where
  oscs : List (OscSub α)
  velScale : α

/-- One completed GPU batch: the per-voice output buffers
(`prevOutput[voiceIdx * prevNumSamples + sampleIdx]` as a nested list) plus
its dimensions. -/
structure GPUPending (α : Type) where
  out : List (List α)
  numVoices : ℕ
  numSamples : ℕ

/-- Modelled from the spec: the Metal adapter's internal state.  The
implementation file (MetalSineBank.mm) is not part of the repository — only
MetalSineBank.h and spec §4.7 describe its contract: `processBlock` is
non-blocking, submits the current batch, and returns the PREVIOUS call's
completed results (zeroed/empty on the first call).  The double buffer is
the stored previous submission; the GPU sine-summation kernel itself is
abstracted as a `kernel` function parameter. -/
structure MetalSineBank (α : Type) where
  pending : Option (GPUPending α)

/-- Modelled from the spec: `MetalSineBank::processBlock` — store the current
batch (evaluated by the abstracted GPU `kernel`), return the previous batch's
per-voice output and dimensions (empty with zero counts on the first call). -/
def MetalSineBank.processBlock (kernel : List (VoiceSub α) → ℕ → List (List α))
    (subs : List (VoiceSub α)) (numSamples : ℕ) (st : MetalSineBank α) :
    (List (List α) × ℕ × ℕ) × MetalSineBank α :=
  let prev :=
    match st.pending with
    | none => ([], 0, 0)
    | some pb => (pb.out, pb.numVoices, pb.numSamples)
  (prev, { pending := some { out := kernel subs numSamples, numVoices := subs.length
                             numSamples := numSamples } })

/-- Phase-1 per-partial work of `processBlockGPU`: record phase/increment/level,
pre-compute the per-sample ADSR values on the CPU, then advance the phase by
`numSamples` increments and wrap it with `phase -= (int)phase`. -/
def Partial.phase1 [LinearOrderedField α] [FloorRing α] (numSamples : ℕ) (sr : α)
    (p : Partial α) : OscSub α × Partial α :=
  let inc := p.frequency / sr
  let (vals, env') := ADSREnvelope.processN numSamples p.envelope
  let ph := p.phase + (numSamples : α) * inc
  let ph := ph - ((cppTrunc ph : ℤ) : α)
  ({ phaseStart := p.phase, phaseInc := inc, level := p.level, envVals := vals },
   { p with envelope := env', phase := ph })

/-- Phase-1 partial scan for one voice: collect each active-envelope partial
in index order (inactive partials are skipped and left untouched). -/
def KawaiiVoice.phase1Aux [LinearOrderedField α] [FloorRing α] (numSamples : ℕ)
    (sr : α) : List (Fin kMaxPartials) → (Fin kMaxPartials → Partial α) →
      List (OscSub α) × (Fin kMaxPartials → Partial α)
  | [], ps => ([], ps)
  | i :: is, ps =>
      if (ps i).envelope.isActive then
        let (osc, p') := (ps i).phase1 numSamples sr
        let (rest, ps') :=
          KawaiiVoice.phase1Aux numSamples sr is (Function.update ps i p')
        (osc :: rest, ps')
      else KawaiiVoice.phase1Aux numSamples sr is ps

/-- Phase-1 work for one active voice: its oscillator batch plus the
`VoiceDescriptor` velocity scale `velocity / kMaxPartials`. -/
def KawaiiVoice.phase1 [LinearOrderedField α] [FloorRing α] (numSamples : ℕ)
    (sr : α) (v : KawaiiVoice α) : VoiceSub α × KawaiiVoice α :=
  let (oscs, ps) :=
    KawaiiVoice.phase1Aux numSamples sr (List.finRange kMaxPartials) v.partials
  ({ oscs := oscs, velScale := v.velocity / (kMaxPartials : α) },
   { v with partials := ps })

/-- Phase 1 of `processBlockGPU` over the voice pool: walk voices in index
order, batch every active voice and record its pool index in
`currentVoiceMap`; inactive voices are skipped. -/
def procPhase1Aux [LinearOrderedField α] [FloorRing α] (numSamples : ℕ) (sr : α) :
    List (Fin kMaxVoices) → (Fin kMaxVoices → KawaiiVoice α) →
      List (VoiceSub α) × List (Fin kMaxVoices) × (Fin kMaxVoices → KawaiiVoice α)
  | [], vs => ([], [], vs)
  | v :: rest, vs =>
      if (vs v).isActive then
        let pv := (vs v).phase1 numSamples sr
        let r := procPhase1Aux numSamples sr rest (Function.update vs v pv.2)
        (pv.1 :: r.1, v :: r.2.1, r.2.2)
      else procPhase1Aux numSamples sr rest vs

/-- Phase 1 of `processBlockGPU`. -/
def procPhase1 [LinearOrderedField α] [FloorRing α] (numSamples : ℕ) (sr : α)
    (voices : Fin kMaxVoices → KawaiiVoice α) :
    List (VoiceSub α) × List (Fin kMaxVoices) × (Fin kMaxVoices → KawaiiVoice α) :=
  procPhase1Aux numSamples sr (List.finRange kMaxVoices) voices

/-- The pool indices of the currently active voices in index order — the
content of the `currentVoiceMap` Phase 1 captures (proved below). -/
def activeIndices (voices : Fin kMaxVoices → KawaiiVoice α) : List (Fin kMaxVoices) :=
  (List.finRange kMaxVoices).filter fun v => (voices v).isActive

/-- Host output buffers, indexed by (channel, sample). -/
def Buffers (α : Type) : Type := ℕ → ℕ → α

/-- `outputs[ch][s] += val` for every channel `ch < numChannels`. -/
def addToChannels [LinearOrderedField α] (numChannels s : ℕ) (val : α)
    (out : Buffers α) : Buffers α :=
  fun c i => if c < numChannels ∧ i = s then out c i + val else out c i

/-- The per-sub-block smoother/envelope advancement of `processBlockGPU`
Phase 3: advance the filter envelope and both smoothers once per sample,
keeping the values of the last sample (initialized 0.0 for an empty block). -/
def KawaiiVoice.advanceFilterParams [LinearOrderedField α] :
    ℕ → KawaiiVoice α → (α × α × α) × KawaiiVoice α
  | 0, v => ((0, 0, 0), v)
  | n + 1, v =>
      let (ev, fe) := v.filterEnvelope.process
      let (cn, cs) := v.cutoffSmoother.process
      let (rs, rsm) := v.resoSmoother.process
      let v' := { v with filterEnvelope := fe, cutoffSmoother := cs, resoSmoother := rsm }
      match n with
      | 0 => ((ev, cn, rs), v')
      | m + 1 => KawaiiVoice.advanceFilterParams (m + 1) v'

/-- The tight inner loop of Phase 3: filter one sample of the voice's GPU
buffer and mix it (times `masterVol`) into every output channel. -/
def subBlockInner [LinearOrderedField α] (numChannels : ℕ) (masterVol : α)
    (buf : List α) : ℕ → ℕ → KawaiiVoice α → Buffers α → KawaiiVoice α × Buffers α
  | _, 0, v, out => (v, out)
  | s, cnt + 1, v, out =>
      let sample := buf.getD s 0
      let (y, v') := v.filterBlockStep sample
      subBlockInner numChannels masterVol buf (s + 1) cnt v'
        (addToChannels numChannels s (y * masterVol) out)

/-- `kSubBlockSize = 32`. -/
def kSubBlockSize : ℕ := 32

/-- The sub-block start offsets `0, 32, 64, …` below `totalSamples`. -/
def subBlockStarts (totalSamples : ℕ) : List ℕ :=
  (List.range ((totalSamples + kSubBlockSize - 1) / kSubBlockSize)).map
    (· * kSubBlockSize)

/-- Phase-3 processing of one voice's previous-block GPU output: per 32-sample
sub-block, advance smoothers/envelope to the sub-block end, compute the
effective cutoff, set up coefficient interpolation, then filter and mix. -/
def KawaiiVoice.filterVoiceBlock [LinearOrderedField α] (M : MathFns α)
    (numChannels : ℕ) (masterVol : α) (buf : List α) (totalSamples : ℕ)
    (v : KawaiiVoice α) (out : Buffers α) : KawaiiVoice α × Buffers α :=
  (subBlockStarts totalSamples).foldl
    (fun acc subStart =>
      let subEnd := min (subStart + kSubBlockSize) totalSamples
      let subLen := subEnd - subStart
      let ((envValue, smoothedNorm, smoothedReso), v) :=
        acc.1.advanceFilterParams subLen
      let effectiveCutoff := v.computeEffectiveCutoff M smoothedNorm envValue
      let v := v.prepareFilterBlock M effectiveCutoff smoothedReso subLen
      subBlockInner numChannels masterVol buf subStart subLen v acc.2)
    (v, out)

/-- Phase 3 of `processBlockGPU`: for each GPU voice slot `i` of the previous
batch, route its buffer to pool voice `prevGpuVoiceMap[i]` and filter it.
Also returns the list of routed pool indices in loop order. -/
def procPhase3Aux [LinearOrderedField α] (M : MathFns α) (numChannels : ℕ)
    (masterVol : α) (prevOut : List (List α)) (totalSamples : ℕ)
    (pmap : List (Fin kMaxVoices)) :
    List ℕ → (Fin kMaxVoices → KawaiiVoice α) → Buffers α →
      (Fin kMaxVoices → KawaiiVoice α) × Buffers α × List (Fin kMaxVoices)
  | [], vs, out => (vs, out, [])
  | i :: rest, vs, out =>
      let vIdx := pmap.getD i ⟨0, by decide⟩
      let buf := prevOut.getD i []
      let fv := (vs vIdx).filterVoiceBlock M numChannels masterVol buf totalSamples out
      let r :=
        procPhase3Aux M numChannels masterVol prevOut totalSamples pmap rest
          (Function.update vs vIdx fv.1) fv.2
      (r.1, r.2.1, vIdx :: r.2.2)

/-- The final hard clamp to [−1, 1] over every output sample of the block. -/
def clampBuffers [LinearOrderedField α] (numChannels numSamples : ℕ)
    (out : Buffers α) : Buffers α :=
  fun c i =>
    if c < numChannels ∧ i < numSamples then cppClamp (out c i) (-1) 1 else out c i

/-- KawaiiProcessor.h: the processor state the claims touch (`params`,
`voices`, the GPU pipeline fields and `processSetup.sampleRate`). -/
structure KawaiiProcessorState (α : Type) where
  params : List α
  voices : Fin kMaxVoices → KawaiiVoice α
  sampleRate : α
  useGPU : Bool
  metal : MetalSineBank α
  prevGpuVoiceMap : List (Fin kMaxVoices)
  prevGpuNumVoices : ℕ

/-- `KawaiiProcessor::processBlockGPU`: Phase 1 batches the CURRENT block and
captures `currentVoiceMap`; Phase 2 submits it and retrieves the PREVIOUS
block's results; Phase 3 filters those results routed through the PREVIOUS
call's `prevGpuVoiceMap` and clamps; only afterwards is `currentVoiceMap`
saved into the state for the next call.  The returned list is the trace of
pool voice indices Phase 3 routed results to, in loop order. -/
def processBlockGPU [LinearOrderedField α] [FloorRing α] (M : MathFns α)
    (kernel : List (VoiceSub α) → ℕ → List (List α)) (numChannels numSamples : ℕ)
    (masterVol : α) (out : Buffers α) (s : KawaiiProcessorState α) :
    (Buffers α × List (Fin kMaxVoices)) × KawaiiProcessorState α :=
  let ph1 := procPhase1 numSamples s.sampleRate s.voices
  let subs := ph1.1
  let currentVoiceMap := ph1.2.1
  let voices1 := ph1.2.2
  let mb := s.metal.processBlock kernel subs numSamples
  let prevOut := mb.1.1
  let prevNumVoices := mb.1.2.1
  let prevNumSamples := mb.1.2.2
  let metal' := mb.2
  let p3 :=
    if 0 < prevNumVoices ∧ 0 < prevNumSamples then
      let totalSamples := min prevNumSamples numSamples
      let q :=
        procPhase3Aux M numChannels masterVol prevOut totalSamples
          s.prevGpuVoiceMap (List.range prevNumVoices) voices1 out
      (q.1, clampBuffers numChannels numSamples q.2.1, q.2.2)
    else (voices1, out, ([] : List (Fin kMaxVoices)))
  ((p3.2.1, p3.2.2),
   { s with voices := p3.1, metal := metal'
            prevGpuVoiceMap := currentVoiceMap
            prevGpuNumVoices := subs.length })

/-- The per-voice sample loop of `processBlockCPU`. -/
def cpuVoiceSamples [LinearOrderedField α] (M : MathFns α) (numChannels : ℕ)
    (masterVol : α) : ℕ → ℕ → KawaiiVoice α → Buffers α → KawaiiVoice α × Buffers α
  | _, 0, v, out => (v, out)
  | i, cnt + 1, v, out =>
      let ((outL, outR), v') := v.process M
      let out' : Buffers α := fun c j =>
        if c < numChannels ∧ j = i then out c j + (if c = 0 then outL else outR) * masterVol
        else out c j
      cpuVoiceSamples M numChannels masterVol (i + 1) cnt v' out'

/-- `KawaiiProcessor::processBlockCPU`: render every active voice per-sample,
sum into the output buffer, then clamp to [−1, 1]. -/
def processBlockCPU [LinearOrderedField α] (M : MathFns α)
    (numChannels numSamples : ℕ) (masterVol : α)
    (voices : Fin kMaxVoices → KawaiiVoice α) (out : Buffers α) :
    (Fin kMaxVoices → KawaiiVoice α) × Buffers α :=
  let (vs, o) :=
    (List.finRange kMaxVoices).foldl
      (fun acc vi =>
        if (acc.1 vi).isActive then
          let (v', o') :=
            cpuVoiceSamples M numChannels masterVol 0 numSamples (acc.1 vi) acc.2
          (Function.update acc.1 vi v', o')
        else acc)
      (voices, out)
  (vs, clampBuffers numChannels numSamples o)

/-- KawaiiParams.h `ParamRanges::kEnvAttackMin` (ms). -/
def kEnvAttackMin [LinearOrderedField α] : α := 1

/-- KawaiiParams.h `ParamRanges::kEnvAttackMax` (ms). -/
def kEnvAttackMax [LinearOrderedField α] : α := 5000

/-- KawaiiParams.h `ParamRanges::kEnvDecayMin` (ms). -/
def kEnvDecayMin [LinearOrderedField α] : α := 1

/-- KawaiiParams.h `ParamRanges::kEnvDecayMax` (ms). -/
def kEnvDecayMax [LinearOrderedField α] : α := 10000

/-- KawaiiParams.h `ParamRanges::kEnvReleaseMin` (ms). -/
def kEnvReleaseMin [LinearOrderedField α] : α := 1

/-- KawaiiParams.h `ParamRanges::kEnvReleaseMax` (ms). -/
def kEnvReleaseMax [LinearOrderedField α] : α := 10000

/-- KawaiiParams.h: `normalizedToMs(n, min, max) = min * pow(max/min, n)`. -/
def normalizedToMs [LinearOrderedField α] (M : MathFns α)
    (normalized minMs maxMs : α) : α :=
  minMs * M.powF (maxMs / minMs) normalized

/-- Read `params[n]` from the flat parameter list (in-range by construction
in the source; out-of-range reads default to 0 here). -/
def pget [LinearOrderedField α] (params : List α) (n : ℕ) : α := params.getD n 0

/-- The per-voice body of `KawaiiProcessor::updateParameters`: fan the flat
parameter snapshot out into one voice (per-partial level + ADSR, then the
filter section). -/
def updateVoiceFromParams [LinearOrderedField α] [FloorRing α] (M : MathFns α)
    (params : List α) (v : KawaiiVoice α) : KawaiiVoice α :=
  let filterCutoffNorm := pget params kParamFilterCutoff
  let filterReso := pget params kParamFilterReso
  let filterTypeInt :=
    cppTrunc (pget params kParamFilterType * ((kNumFilterTypes : α) - 1) + 1 / 2)
  let filterType :=
    FilterType.ofInt (cppClamp filterTypeInt 0 ((kNumFilterTypes : ℤ) - 1))
  let fAtk := normalizedToMs M (pget params kParamFilterEnvAtk) kEnvAttackMin kEnvAttackMax / 1000
  let fDec := normalizedToMs M (pget params kParamFilterEnvDec) kEnvDecayMin kEnvDecayMax / 1000
  let fSus := pget params kParamFilterEnvSus
  let fRel := normalizedToMs M (pget params kParamFilterEnvRel) kEnvReleaseMin kEnvReleaseMax / 1000
  let filterEnvDepth := (pget params kParamFilterEnvDep - 1 / 2) * 2
  let filterKeytrack := pget params kParamFilterKeytrk
  let v :=
    { v with
      partials := fun i =>
        let p := v.partials i
        let aSec := normalizedToMs M (pget params (partialParam (i : ℕ) kPartialOffAttack)) kEnvAttackMin kEnvAttackMax / 1000
        let dSec := normalizedToMs M (pget params (partialParam (i : ℕ) kPartialOffDecay)) kEnvDecayMin kEnvDecayMax / 1000
        let sLvl := pget params (partialParam (i : ℕ) kPartialOffSustain)
        let rSec := normalizedToMs M (pget params (partialParam (i : ℕ) kPartialOffRelease)) kEnvReleaseMin kEnvReleaseMax / 1000
        { p with
          level := pget params (partialParam (i : ℕ) kPartialOffLevel)
          envelope :=
            (((p.envelope.setAttack M.expF aSec).setDecay M.expF dSec).setSustain
              sLvl).setRelease M.expF rSec } }
  (((((((((v.setFilterCutoffNorm filterCutoffNorm).setFilterResonance
    filterReso).setFilterType filterType).setFilterEnvAttack M.expF
    fAtk).setFilterEnvDecay M.expF fDec).setFilterEnvSustain
    fSus).setFilterEnvRelease M.expF fRel).setFilterEnvDepth
    filterEnvDepth).setFilterKeytrack filterKeytrack)

/-- `KawaiiProcessor::updateParameters`: push the parameter snapshot into
every voice. -/
def updateParameters [LinearOrderedField α] [FloorRing α] (M : MathFns α)
    (s : KawaiiProcessorState α) : KawaiiProcessorState α :=
  { s with voices := fun vi => updateVoiceFromParams M s.params (s.voices vi) }

/-- VST3 `tresult` restricted to the values the processor produces
(`kResultOk = kResultTrue`, and `kResultFalse`). -/
inductive TResult where
  | resultOk
  | resultFalse
deriving DecidableEq, Repr

/-- `kResultOk`. -/
def kResultOk : TResult := TResult.resultOk

/-- `kResultTrue` (the same VST3 value as `kResultOk`). -/
def kResultTrue : TResult := TResult.resultOk

/-- `kResultFalse`. -/
def kResultFalse : TResult := TResult.resultFalse

/-- VST3 `SymbolicSampleSizes`: `kSample32 = 0`. -/
def kSample32 : ℤ := 0

/-- VST3 `SymbolicSampleSizes`: `kSample64 = 1`. -/
def kSample64 : ℤ := 1

/-- `KawaiiProcessor::canProcessSampleSize`: accept 32-bit and 64-bit floats,
reject anything else. -/
def canProcessSampleSize (symbolicSampleSize : ℤ) : TResult :=
  if symbolicSampleSize = kSample32 ∨ symbolicSampleSize = kSample64 then kResultTrue
  else kResultFalse

/-- The slice of VST3 `ProcessData` the processor reads: parameter-change
queues (id, point values in order), input events, output bus/channel/sample
counts and the symbolic sample size. -/
structure ProcessData (α : Type) where
  paramQueues : List (ℕ × List α)
  events : List (KEvent α)
  numOutputs : ℕ
  numChannels : ℕ
  numSamples : ℕ
  symbolicSampleSize : ℤ

/-- The parameter-change ingestion loop of `KawaiiProcessor::process`: for
each queue take the LAST point's value (none for an empty queue) and store it
when the id is in range. -/
def applyParamChanges [LinearOrderedField α] (qs : List (ℕ × List α))
    (params : List α) : List α :=
  qs.foldl
    (fun ps q =>
      match q.2.getLast? with
      | none => ps
      | some value => if q.1 < kNumParams then ps.set q.1 value else ps)
    params

/-- `KawaiiProcessor::process`: ingest parameter changes and events, fan out
parameters, then: success without touching buffers when there is no output
bus; reject `kSample64`; otherwise zero the buffers and render through the
GPU or CPU path.  Returns the `tresult`, the output buffers and the new
state. -/
def KawaiiProcessor.process [LinearOrderedField α] [FloorRing α] (M : MathFns α)
    (kernel : List (VoiceSub α) → ℕ → List (List α)) (data : ProcessData α)
    (out : Buffers α) (s : KawaiiProcessorState α) :
    TResult × Buffers α × KawaiiProcessorState α :=
  let s := { s with params := applyParamChanges data.paramQueues s.params }
  let s := { s with voices := data.events.foldl (fun vs e => processEvent M e vs) s.voices }
  let s := updateParameters M s
  if data.numOutputs = 0 then (kResultOk, out, s)
  else if data.symbolicSampleSize = kSample64 then (kResultFalse, out, s)
  else
    let out : Buffers α := fun c i =>
      if c < data.numChannels ∧ i < data.numSamples then 0 else out c i
    let masterVol := pget s.params kParamMasterVolume
    if s.useGPU then
      let ((out', _routed), s') :=
        processBlockGPU M kernel data.numChannels data.numSamples masterVol out s
      (kResultOk, out', s')
    else
      let (vs, out') :=
        processBlockCPU M data.numChannels data.numSamples masterVol s.voices out
      (kResultOk, out', { s with voices := vs })

/-- `KawaiiProcessor::getState`: write every parameter in index order as a
single-precision float; the double→float narrowing is abstracted as `toF`. -/
def getStateList {F : Type} (toF : α → F) (params : List α) : List F :=
  params.map toF

/-- `KawaiiProcessor::setState`: read one float per parameter in index order,
assigning as it goes; a short stream fails (`kResultFalse` as `false`) and
leaves the remaining parameters at their old values.  The float→double
widening is abstracted as `toD`. -/
def setStateList {F : Type} (toD : F → α) : List α → List F → Bool × List α
  | [], _ => (true, [])
  | p :: ps, [] => (false, p :: ps)
  | _ :: ps, v :: vs =>
      let (ok, rest) := setStateList toD ps vs
      (ok, toD v :: rest)

/-! ## Concrete fixtures for witnesses and counterexamples -/

/-- A concrete instantiation of the external math-library functions over `ℚ`,
used to evaluate the embedding at concrete inputs (the claims settled with it
do not depend on the values of the transcendental functions). -/
def Mq : MathFns ℚ :=
  { sinF := fun _ => 0, tanF := fun _ => 0, expF := fun _ => 0
    powF := fun _ _ => 0, piC := 3 }

/-- A default all-idle voice pool over `ℚ`. -/
def pool0 : Fin kMaxVoices → KawaiiVoice ℚ := fun _ => KawaiiVoice.initial

/-- An envelope holding at sustain level 4/5 (a sounding prior note). -/
def envSus : ADSREnvelope ℚ :=
  { ADSREnvelope.initial with stage := Stage.Sustain, currentValue := 4 / 5 }

/-- A voice sounding note 60 whose first partial's envelope is at 4/5. -/
def vSus : KawaiiVoice ℚ :=
  { KawaiiVoice.initial with
    noteNumber := 60, velocity := 1
    partials := fun i =>
      if i = ⟨0, by decide⟩ then { Partial.initial with envelope := envSus }
      else Partial.initial }

/-- A partial whose frequency (2) exceeds the sample rate (1), with an active
envelope and phase 0. -/
def pFast : Partial ℚ :=
  { phase := 0, frequency := 2, level := 1
    envelope := { ADSREnvelope.initial with stage := Stage.Attack } }

/-- A partial with frequency 1 at sample rate 2 (at most the sample rate). -/
def pSlow : Partial ℚ :=
  { phase := 1 / 2, frequency := 1, level := 1
    envelope := { ADSREnvelope.initial with stage := Stage.Attack } }

/-- A GPU-path processor state over `ℚ` whose voices are all sounding. -/
def sAct : KawaiiProcessorState ℚ :=
  { params := List.replicate kNumParams 0
    voices := fun _ => vSus
    sampleRate := 44100, useGPU := true
    metal := { pending := none }
    prevGpuVoiceMap := [], prevGpuNumVoices := 0 }

/-- A processor state over `ℚ` on the CPU path with default voices. -/
def stateQ : KawaiiProcessorState ℚ :=
  { params := List.replicate kNumParams 0
    voices := fun _ => KawaiiVoice.initial
    sampleRate := 44100, useGPU := false
    metal := { pending := none }
    prevGpuVoiceMap := [], prevGpuNumVoices := 0 }

/-- A process block with one output bus requesting 64-bit samples. -/
def data64 : ProcessData ℚ :=
  { paramQueues := [], events := [], numOutputs := 1, numChannels := 2
    numSamples := 8, symbolicSampleSize := kSample64 }

/-! ## Helper lemmas -/

/-- `cppClamp` lands in `[lo, hi]` whenever `lo ≤ hi`. -/
theorem cppClamp_bounds [LinearOrder α] (x lo hi : α) (h : lo ≤ hi) :
    lo ≤ cppClamp x lo hi ∧ cppClamp x lo hi ≤ hi := by
  unfold cppClamp
  by_cases h1 : x < lo
  · simp only [if_pos h1]
    exact ⟨le_refl _, h⟩
  · simp only [if_neg h1]
    by_cases h2 : hi < x
    · simp only [if_pos h2]
      exact ⟨h, le_refl _⟩
    · simp only [if_neg h2]
      exact ⟨le_of_not_lt h1, le_of_not_lt h2⟩

/-! ## Claims -/

/-- C7: for every voice-pool state and pitch, a NoteOn with velocity 0 is
handled exactly like a NoteOff for the same pitch: `processEvent` produces
the identical pool (both run the matching-active-voice `noteOff()` loop and
nothing else). -/
theorem processEvent_noteOn_vel0_eq_noteOff [LinearOrderedField α] (M : MathFns α)
    (voices : Fin kMaxVoices → KawaiiVoice α) (pitch : ℤ) :
    processEvent M (KEvent.noteOn pitch 0) voices
      = processEvent M (KEvent.noteOff pitch) voices := by
  simp [processEvent]

/-- C6: for every voice, smoothed normalized cutoff, envelope value, envelope
depth in [−1, 1] and keytrack in [0, 1], the effective cutoff equals
`clamp(20·1000^norm + envDepth·envValue·10000 + keytrack·(note − 60)·100,
20, 20000)` and always lies in [20 Hz, 20 kHz]. -/
theorem computeEffectiveCutoff_formula [LinearOrderedField α] (M : MathFns α)
    (v : KawaiiVoice α) (smoothedNorm envValue : α)
    (hd1 : -1 ≤ v.filterEnvDepth) (hd2 : v.filterEnvDepth ≤ 1)
    (hk1 : 0 ≤ v.filterKeytrack) (hk2 : v.filterKeytrack ≤ 1) :
    v.computeEffectiveCutoff M smoothedNorm envValue
      = cppClamp (20 * M.powF 1000 smoothedNorm
          + v.filterEnvDepth * envValue * 10000
          + v.filterKeytrack * ((v.noteNumber : α) - 60) * 100) 20 20000
    ∧ 20 ≤ v.computeEffectiveCutoff M smoothedNorm envValue
    ∧ v.computeEffectiveCutoff M smoothedNorm envValue ≤ 20000 := by
  refine ⟨rfl, ?_, ?_⟩
  · exact (cppClamp_bounds _ 20 20000 (by norm_num)).1
  · exact (cppClamp_bounds _ 20 20000 (by norm_num)).2

/-- Witness for C6 at the default voice with zero inputs. -/
theorem computeEffectiveCutoff_formula_witness :
    (-1 ≤ (KawaiiVoice.initial (α := ℚ)).filterEnvDepth
      ∧ (KawaiiVoice.initial (α := ℚ)).filterEnvDepth ≤ 1
      ∧ 0 ≤ (KawaiiVoice.initial (α := ℚ)).filterKeytrack
      ∧ (KawaiiVoice.initial (α := ℚ)).filterKeytrack ≤ 1)
    ∧ (20 ≤ (KawaiiVoice.initial (α := ℚ)).computeEffectiveCutoff Mq 0 0
        ∧ (KawaiiVoice.initial (α := ℚ)).computeEffectiveCutoff Mq 0 0 ≤ 20000) :=
  ⟨⟨by decide, by decide, by decide, by decide⟩,
   (computeEffectiveCutoff_formula Mq KawaiiVoice.initial 0 0
      (by decide) (by decide) (by decide) (by decide)).2⟩

/-- C9 counterexample: stealing/reusing a sounding voice via `noteOn` zeroes
the phase but does NOT reset the oscillator's envelope — the prior note's
envelope value 4/5 is retained (the claim would require a fresh envelope,
i.e. current value 0 as after `reset()`). -/
theorem noteOn_env_value_retained_cex :
    vSus.isActive = true
    ∧ ((vSus.noteOn Mq 72 1).partials ⟨0, by decide⟩).phase = 0
    ∧ ((vSus.noteOn Mq 72 1).partials ⟨0, by decide⟩).envelope.currentValue = 4 / 5
    ∧ ¬ ((vSus.noteOn Mq 72 1).partials ⟨0, by decide⟩).envelope.currentValue = 0 := by
  have h45 : ((vSus.noteOn Mq 72 1).partials ⟨0, by decide⟩).envelope.currentValue
      = (4 / 5 : ℚ) := rfl
  refine ⟨by decide, rfl, h45, ?_⟩
  rw [h45]
  norm_num

/-- C9 (amended): on voice steal/reuse, `noteOn` zeroes every oscillator's
phase and retriggers its envelope to the Attack stage, but the envelope's
current value (and the partial's level) carry over from the prior note —
the envelope is retriggered, not reset. -/
theorem noteOn_resets_phase_retriggers_env [LinearOrderedField α] (M : MathFns α)
    (v : KawaiiVoice α) (note : ℤ) (vel : α) (i : Fin kMaxPartials) :
    ((v.noteOn M note vel).partials i).phase = 0
    ∧ ((v.noteOn M note vel).partials i).envelope.stage = Stage.Attack
    ∧ ((v.noteOn M note vel).partials i).envelope.currentValue
        = (v.partials i).envelope.currentValue
    ∧ ((v.noteOn M note vel).partials i).level = (v.partials i).level :=
  ⟨rfl, rfl, rfl, rfl⟩

/-- C3 counterexample: with a positive frequency larger than the sample rate
(frequency 2, sample rate 1), a `Partial::process` call from phase 0 with an
active envelope leaves the phase at 1, outside [0, 1) — the single `−1`
wrap is not enough. -/
theorem partial_phase_cex :
    0 < pFast.frequency ∧ (0 : ℚ) < 1 ∧ 0 ≤ pFast.phase ∧ pFast.phase < 1
    ∧ pFast.envelope.isActive = true
    ∧ ¬ ((pFast.process Mq 1).2.phase < 1) := by
  refine ⟨by decide, by norm_num, by decide, by decide, by decide, ?_⟩
  norm_num [pFast, Mq, Partial.process, ADSREnvelope.process, ADSREnvelope.isActive,
    kAttackTarget, kSilenceThreshold, ADSREnvelope.initial]
  simp

/-- C3 (amended): for every oscillator with positive frequency AT MOST the
sample rate (true of every frequency the voice assigns, which are zeroed at
or above Nyquist), positive sample rate and active envelope, `process()`
keeps the phase in [0, 1). -/
theorem partial_phase_stays_in_unit [LinearOrderedField α] (M : MathFns α)
    (sr : α) (p : Partial α) (hf : 0 < p.frequency) (hfs : p.frequency ≤ sr)
    (hsr : 0 < sr) (h0 : 0 ≤ p.phase) (h1 : p.phase < 1)
    (hact : p.envelope.isActive = true) :
    0 ≤ (p.process M sr).2.phase ∧ (p.process M sr).2.phase < 1 := by
  have hinc0 : 0 < p.frequency / sr := div_pos hf hsr
  have hinc1 : p.frequency / sr ≤ 1 := (div_le_one hsr).mpr hfs
  unfold Partial.process
  simp only [hact, if_true]
  by_cases hw : (1 : α) ≤ p.phase + p.frequency / sr
  · simp only [if_pos hw]
    constructor
    · simpa using hw
    · have : p.phase + p.frequency / sr < 2 := by linarith
      linarith
  · simp only [if_neg hw]
    constructor
    · linarith
    · exact lt_of_not_le hw

/-- Witness for C3 (amended): frequency 1 at sample rate 2, phase 1/2. -/
theorem partial_phase_stays_in_unit_witness :
    (0 < pSlow.frequency ∧ pSlow.frequency ≤ 2 ∧ (0 : ℚ) < 2
      ∧ 0 ≤ pSlow.phase ∧ pSlow.phase < 1 ∧ pSlow.envelope.isActive = true)
    ∧ (0 ≤ (pSlow.process Mq 2).2.phase ∧ (pSlow.process Mq 2).2.phase < 1) :=
  ⟨⟨by decide, by decide, by norm_num, by norm_num [pSlow], by norm_num [pSlow],
     by decide⟩,
   partial_phase_stays_in_unit Mq 2 pSlow (by decide) (by decide) (by norm_num)
     (by norm_num [pSlow]) (by norm_num [pSlow]) (by decide)⟩

/-- C8: `canProcessSampleSize` accepts `kSample64`, yet `process` on a block
with an output bus and 64-bit samples returns `kResultFalse` instead of
rendering — the rejection happens during block processing, contradicting the
format-negotiation contract the code itself advertises. -/
theorem sample64_accepted_then_rejected :
    canProcessSampleSize kSample64 = kResultTrue
    ∧ (KawaiiProcessor.process Mq (fun _ _ => []) data64 (fun _ _ => 0) stateQ).1
        = kResultFalse := by
  constructor
  · rfl
  · rfl

/-- If the allocation scan returns a voice, it is inactive and every voice
listed before it is active. -/
theorem firstInactive_some_spec {α : Type} (voices : Fin kMaxVoices → KawaiiVoice α) :
    ∀ (l : List (Fin kMaxVoices)), l.Pairwise (· < ·) →
      ∀ i, firstInactive voices l = some i →
        (voices i).isActive = false ∧ ∀ j ∈ l, j < i → (voices j).isActive = true := by
  intro l
  induction l with
  | nil =>
      intro _ i h
      simp [firstInactive] at h
  | cons a l ih =>
      intro hp i h
      obtain ⟨hal, hpl⟩ := List.pairwise_cons.mp hp
      unfold firstInactive at h
      by_cases ha : (voices a).isActive = true
      · rw [if_pos ha] at h
        obtain ⟨h1, h2⟩ := ih hpl i h
        refine ⟨h1, ?_⟩
        intro j hj hji
        rcases List.mem_cons.mp hj with hj' | hj'
        · rw [hj']; exact ha
        · exact h2 j hj' hji
      · rw [if_neg ha] at h
        have hai : a = i := Option.some.inj h
        subst hai
        refine ⟨Bool.not_eq_true _ ▸ ha, ?_⟩
        intro j hj hji
        rcases List.mem_cons.mp hj with hj' | hj'
        · exact absurd hji (hj' ▸ lt_irrefl a)
        · exact absurd hji (not_lt_of_gt (hal j hj'))

/-- If the allocation scan finds no voice, every listed voice is active. -/
theorem firstInactive_none_spec {α : Type} (voices : Fin kMaxVoices → KawaiiVoice α) :
    ∀ (l : List (Fin kMaxVoices)), firstInactive voices l = none →
      ∀ j ∈ l, (voices j).isActive = true := by
  intro l
  induction l with
  | nil => intro _ j hj; simp at hj
  | cons a l ih =>
      intro h j hj
      unfold firstInactive at h
      by_cases ha : (voices a).isActive = true
      · rw [if_pos ha] at h
        rcases List.mem_cons.mp hj with hj' | hj'
        · rw [hj']; exact ha
        · exact ih h j hj'
      · rw [if_neg ha] at h
        exact absurd h (by simp)

/-- C2: a NoteOn with velocity > 0 triggers `noteOn` on exactly the voice
chosen by `allocateVoice`; that choice is the lowest-index inactive voice
when one exists, and unconditionally voice index 0 when every voice of the
fixed pool of `kMaxVoices` voices is active. -/
theorem noteOn_allocates_first_free [LinearOrderedField α] (M : MathFns α)
    (voices : Fin kMaxVoices → KawaiiVoice α) (pitch : ℤ) (vel : α)
    (hv : 0 < vel) :
    processEvent M (KEvent.noteOn pitch vel) voices
      = Function.update voices (allocateVoice voices)
          ((voices (allocateVoice voices)).noteOn M pitch vel)
    ∧ (∀ i : Fin kMaxVoices, (voices i).isActive = false →
        (voices (allocateVoice voices)).isActive = false
        ∧ ∀ j : Fin kMaxVoices, j < allocateVoice voices →
            (voices j).isActive = true)
    ∧ ((∀ i : Fin kMaxVoices, (voices i).isActive = true) →
        allocateVoice voices = ⟨0, by decide⟩) := by
  refine ⟨?_, ?_, ?_⟩
  · simp only [processEvent]
    rw [if_neg (ne_of_gt hv)]
  · intro i hi
    cases hfi : firstInactive voices (List.finRange kMaxVoices) with
    | none =>
        have := firstInactive_none_spec voices _ hfi i (List.mem_finRange i)
        rw [hi] at this
        exact absurd this (by simp)
    | some t =>
        have hspec := firstInactive_some_spec voices _
          (List.pairwise_lt_finRange kMaxVoices) t hfi
        have ht : allocateVoice voices = t := by
          unfold allocateVoice
          rw [hfi]
          rfl
        rw [ht]
        exact ⟨hspec.1, fun j hj => hspec.2 j (List.mem_finRange j) hj⟩
  · intro hall
    cases hfi : firstInactive voices (List.finRange kMaxVoices) with
    | none =>
        unfold allocateVoice
        rw [hfi]
        rfl
    | some t =>
        have hspec := firstInactive_some_spec voices _
          (List.pairwise_lt_finRange kMaxVoices) t hfi
        rw [hall t] at hspec
        exact absurd hspec.1 (by simp)

/-- Witness for C2 on the all-idle pool with velocity 1. -/
theorem noteOn_allocates_first_free_witness :
    (0 : ℚ) < 1
    ∧ (processEvent Mq (KEvent.noteOn 60 1) pool0
        = Function.update pool0 (allocateVoice pool0)
            ((pool0 (allocateVoice pool0)).noteOn Mq 60 1)
      ∧ (∀ i : Fin kMaxVoices, (pool0 i).isActive = false →
          (pool0 (allocateVoice pool0)).isActive = false
          ∧ ∀ j : Fin kMaxVoices, j < allocateVoice pool0 →
              (pool0 j).isActive = true)
      ∧ ((∀ i : Fin kMaxVoices, (pool0 i).isActive = true) →
          allocateVoice pool0 = ⟨0, by decide⟩)) :=
  ⟨by norm_num, noteOn_allocates_first_free Mq pool0 60 1 (by norm_num)⟩

/-- `setState` with a stream holding exactly one float per parameter
succeeds and assigns every parameter in order. -/
theorem setStateList_full {α F : Type} (toD : F → α) :
    ∀ (p0 : List α) (vs : List F), p0.length = vs.length →
      setStateList toD p0 vs = (true, vs.map toD) := by
  intro p0
  induction p0 with
  | nil =>
      intro vs h
      cases vs with
      | nil => rfl
      | cons v vs' => simp at h
  | cons p ps ih =>
      intro vs h
      cases vs with
      | nil => simp at h
      | cons v vs' =>
          have h' : ps.length = vs'.length := by simpa using h
          simp [setStateList, ih vs' h']

/-- C5: serializing the flat parameter array with `getState` and restoring
the stream with `setState` into a fresh engine succeeds, makes every
parameter the float-rounded original in order, and re-serializing yields the
identical float stream (bit-identical at single-precision resolution).
`toF`/`toD` abstract the double→float and float→double casts; the only fact
used about them is that widening a float back to double and narrowing again
is the identity, which holds for IEEE-754 binary32/binary64. -/
theorem getState_setState_roundtrip {F : Type} [LinearOrderedField α]
    (toF : α → F) (toD : F → α) (hexact : ∀ f : F, toF (toD f) = f)
    (p p0 : List α) (hp : p.length = kNumParams) (hp0 : p0.length = kNumParams) :
    (setStateList toD p0 (getStateList toF p)).1 = true
    ∧ (setStateList toD p0 (getStateList toF p)).2 = p.map (fun x => toD (toF x))
    ∧ getStateList toF (setStateList toD p0 (getStateList toF p)).2
        = getStateList toF p := by
  have hl : p0.length = (getStateList toF p).length := by
    simp [getStateList, hp, hp0]
  have h := setStateList_full toD p0 (getStateList toF p) hl
  refine ⟨by rw [h], ?_, ?_⟩
  · rw [h]
    simp [getStateList, List.map_map]
  · rw [h]
    simp [getStateList, List.map_map, Function.comp_def, hexact]

/-- Witness for C5 with the identity casts over `ℚ` and all-zero parameters. -/
theorem getState_setState_roundtrip_witness :
    ((∀ f : ℚ, id (id f) = f)
      ∧ (List.replicate kNumParams (0 : ℚ)).length = kNumParams
      ∧ (List.replicate kNumParams (3 / 7 : ℚ)).length = kNumParams)
    ∧ (setStateList id (List.replicate kNumParams (3 / 7 : ℚ))
        (getStateList id (List.replicate kNumParams (0 : ℚ)))).1 = true :=
  ⟨⟨fun _ => rfl, List.length_replicate _ _, List.length_replicate _ _⟩,
   (getState_setState_roundtrip id id (fun _ => rfl)
      (List.replicate kNumParams 0) (List.replicate kNumParams (3 / 7))
      (List.length_replicate _ _) (List.length_replicate _ _)).1⟩

/-- `setState` on a stream shorter than the parameter count fails and leaves
exactly the unread tail at its old values. -/
theorem setStateList_short {α F : Type} (toD : F → α) :
    ∀ (p0 : List α) (vs : List F), vs.length < p0.length →
      setStateList toD p0 vs = (false, vs.map toD ++ p0.drop vs.length) := by
  intro p0
  induction p0 with
  | nil =>
      intro vs h
      simp at h
  | cons p ps ih =>
      intro vs h
      cases vs with
      | nil => rfl
      | cons v vs' =>
          have h' : vs'.length < ps.length := by simpa using h
          simp [setStateList, ih vs' h']

/-- C10: `setState` is not atomic on error — for every stream yielding fewer
than `kNumParams` floats it returns failure, the parameters read before the
stream ended are already overwritten with the new values, and the remaining
parameters keep their old values. -/
theorem setState_short_stream_not_atomic {F : Type} [LinearOrderedField α]
    (toD : F → α) (p0 : List α) (vs : List F)
    (hp0 : p0.length = kNumParams) (hvs : vs.length < kNumParams) :
    (setStateList toD p0 vs).1 = false
    ∧ (setStateList toD p0 vs).2 = vs.map toD ++ p0.drop vs.length := by
  have h := setStateList_short toD p0 vs (hp0 ▸ hvs)
  exact ⟨by rw [h], by rw [h]⟩

/-- Witness for C10: a single-float stream against 171 parameters. -/
theorem setState_short_stream_not_atomic_witness :
    ((List.replicate kNumParams (7 : ℚ)).length = kNumParams
      ∧ ([(3 : ℚ)] : List ℚ).length < kNumParams)
    ∧ (setStateList id (List.replicate kNumParams (7 : ℚ)) [(3 : ℚ)]).1 = false :=
  ⟨⟨List.length_replicate _ _, by norm_num [kNumParams, kFilterParamBase,
      kPartialParamBase, kMaxPartials, kPartialParamStride]⟩,
   (setState_short_stream_not_atomic id (List.replicate kNumParams (7 : ℚ))
      [(3 : ℚ)] (List.length_replicate _ _)
      (by norm_num [kNumParams, kFilterParamBase, kPartialParamBase,
        kMaxPartials, kPartialParamStride])).1⟩

/-- `process()` on an envelope in the Release stage, written out on the
constructor: decay toward 0, transition to Idle at the silence threshold. -/
theorem ADSREnvelope.process_release [LinearOrderedField α]
    (cv ac dc rc sl sr : α) :
    (ADSREnvelope.mk Stage.Release cv ac dc rc sl sr).process
      = (if cv + (0 - cv) * rc ≤ kSilenceThreshold
         then (0, ADSREnvelope.mk Stage.Idle 0 ac dc rc sl sr)
         else (cv + (0 - cv) * rc,
               ADSREnvelope.mk Stage.Release (cv + (0 - cv) * rc) ac dc rc sl sr)) :=
  rfl

/-- `process()` on an idle envelope: value pinned to 0, stage unchanged. -/
theorem ADSREnvelope.process_idle [LinearOrderedField α]
    (cv ac dc rc sl sr : α) :
    (ADSREnvelope.mk Stage.Idle cv ac dc rc sl sr).process
      = (0, ADSREnvelope.mk Stage.Idle 0 ac dc rc sl sr) :=
  rfl

/-- Unfolding `processIter` from the far end. -/
theorem ADSREnvelope.processIter_succ [LinearOrderedField α] :
    ∀ (n : ℕ) (e : ADSREnvelope α),
      ADSREnvelope.processIter (n + 1) e
        = ((ADSREnvelope.processIter n e).process).2 := by
  intro n
  induction n with
  | zero => intro e; rfl
  | succ m ih =>
      intro e
      rw [show ADSREnvelope.processIter (m + 1 + 1) e
            = ADSREnvelope.processIter (m + 1) (e.process).2 from rfl]
      rw [ih (e.process).2]
      rfl

/-- `processIter` splits across sums of call counts. -/
theorem ADSREnvelope.processIter_add [LinearOrderedField α] :
    ∀ (a b : ℕ) (e : ADSREnvelope α),
      ADSREnvelope.processIter (a + b) e
        = ADSREnvelope.processIter a (ADSREnvelope.processIter b e) := by
  intro a b
  induction b generalizing a with
  | zero => intro e; rfl
  | succ k ih =>
      intro e
      rw [show a + (k + 1) = (a + k) + 1 by omega]
      rw [show ADSREnvelope.processIter ((a + k) + 1) e
            = ADSREnvelope.processIter (a + k) (e.process).2 from rfl]
      rw [ih a (e.process).2]
      rfl

/-- An idle envelope with value 0 stays idle with value 0 forever. -/
theorem ADSREnvelope.idle_stays [LinearOrderedField α] :
    ∀ (m : ℕ) (e : ADSREnvelope α), e.stage = Stage.Idle → e.currentValue = 0 →
      (ADSREnvelope.processIter m e).stage = Stage.Idle
      ∧ (ADSREnvelope.processIter m e).currentValue = 0 := by
  intro m
  induction m with
  | zero => intro e hI hv; exact ⟨hI, hv⟩
  | succ k ih =>
      intro e hI hv
      cases e with
      | mk st cv ac dc rc sl sr =>
          have hst : st = Stage.Idle := hI
          subst hst
          exact ih _ rfl rfl

/-- While releasing, iterated `process()` either has already reached Idle with
value exactly 0, or is still in Release with the geometrically decayed value
and the same release coefficient. -/
theorem ADSREnvelope.release_dichotomy [LinearOrderedField α]
    (e : ADSREnvelope α) (hst : e.stage = Stage.Release) :
    ∀ n : ℕ,
      ((ADSREnvelope.processIter n e).stage = Stage.Idle
        ∧ (ADSREnvelope.processIter n e).currentValue = 0)
      ∨ ((ADSREnvelope.processIter n e).stage = Stage.Release
        ∧ (ADSREnvelope.processIter n e).currentValue
            = e.currentValue * (1 - e.releaseCoeff) ^ n
        ∧ (ADSREnvelope.processIter n e).releaseCoeff = e.releaseCoeff) := by
  intro n
  induction n with
  | zero =>
      refine Or.inr ⟨hst, ?_, rfl⟩
      rw [pow_zero, mul_one]
      rfl
  | succ m ih =>
      rw [ADSREnvelope.processIter_succ]
      rcases ih with ⟨hI, hv⟩ | ⟨hR, hv, hc⟩
      · left
        cases hE : ADSREnvelope.processIter m e with
        | mk st cv ac dc rc sl sr =>
            rw [hE] at hI hv
            have hst2 : st = Stage.Idle := hI
            subst hst2
            exact ⟨rfl, rfl⟩
      · cases hE : ADSREnvelope.processIter m e with
        | mk st cv ac dc rc sl sr =>
            rw [hE] at hR hv hc
            have hst2 : st = Stage.Release := hR
            have hcv2 : cv = e.currentValue * (1 - e.releaseCoeff) ^ m := hv
            have hrc2 : rc = e.releaseCoeff := hc
            subst hst2
            by_cases hth : cv + (0 - cv) * rc ≤ kSilenceThreshold
            · left
              rw [ADSREnvelope.process_release, if_pos hth]
              exact ⟨rfl, rfl⟩
            · right
              rw [ADSREnvelope.process_release, if_neg hth]
              refine ⟨rfl, ?_, hrc2⟩
              show cv + (0 - cv) * rc = e.currentValue * (1 - e.releaseCoeff) ^ (m + 1)
              rw [hcv2, hrc2]
              ring

/-- C4: an envelope in Release with starting value in [0, 1] and a release
coefficient produced by `setRelease` (instantiated with the real exponential,
at any positive sample rate) reaches stage Idle with value exactly 0 after a
bounded number of `process()` calls and stays there — Release cannot loop
forever. -/
theorem release_reaches_idle (e : ADSREnvelope ℝ) (sec : ℝ)
    (hsr : 0 < e.sampleRate) (hst : e.stage = Stage.Release)
    (h0 : 0 ≤ e.currentValue) (h1 : e.currentValue ≤ 1) :
    ∃ N : ℕ, ∀ n : ℕ, N ≤ n →
      ((e.setRelease Real.exp sec).processIter n).stage = Stage.Idle
      ∧ ((e.setRelease Real.exp sec).processIter n).currentValue = 0 := by
  set e' := e.setRelease Real.exp sec with he'
  have hst' : e'.stage = Stage.Release := hst
  have hcv : e'.currentValue = e.currentValue := rfl
  have hr : 1 - e'.releaseCoeff
      = Real.exp (-(1 / (max (1 / 1000) sec * e.sampleRate))) := by
    simp [he', ADSREnvelope.setRelease]
  have hs : 0 < max (1 / 1000 : ℝ) sec * e.sampleRate :=
    mul_pos (lt_of_lt_of_le (by norm_num) (le_max_left _ _)) hsr
  have hr0 : 0 < 1 - e'.releaseCoeff := by
    rw [hr]; exact Real.exp_pos _
  have hr1 : 1 - e'.releaseCoeff < 1 := by
    rw [hr, Real.exp_lt_one_iff]
    exact neg_neg_of_pos (by positivity)
  obtain ⟨N, hN⟩ :=
    exists_pow_lt_of_lt_one (show (0 : ℝ) < 1 / 1000 by norm_num) hr1
  have hbase : ((e'.processIter (N + 1)).stage = Stage.Idle
      ∧ (e'.processIter (N + 1)).currentValue = 0) := by
    rcases ADSREnvelope.release_dichotomy e' hst' N with ⟨hI, hv⟩ | ⟨hR, hv, hc⟩
    · rw [ADSREnvelope.processIter_succ]
      cases hE : ADSREnvelope.processIter N e' with
      | mk st cv ac dc rc sl sr =>
          rw [hE] at hI hv
          have hst2 : st = Stage.Idle := hI
          subst hst2
          exact ⟨rfl, rfl⟩
    · rw [ADSREnvelope.processIter_succ]
      cases hE : ADSREnvelope.processIter N e' with
      | mk st cv ac dc rc sl sr =>
          rw [hE] at hR hv hc
          have hst2 : st = Stage.Release := hR
          have hcv2 : cv = e'.currentValue * (1 - e'.releaseCoeff) ^ N := hv
          have hrc2 : rc = e'.releaseCoeff := hc
          subst hst2
          have hwpos : 0 ≤ cv := by
            rw [hcv2, hcv]
            exact mul_nonneg h0 (pow_nonneg (le_of_lt hr0) N)
          have hwlt : cv < 1 / 1000 := by
            rw [hcv2, hcv]
            calc e.currentValue * (1 - e'.releaseCoeff) ^ N
                ≤ 1 * (1 - e'.releaseCoeff) ^ N :=
                  mul_le_mul_of_nonneg_right h1 (pow_nonneg (le_of_lt hr0) N)
              _ = (1 - e'.releaseCoeff) ^ N := one_mul _
              _ < 1 / 1000 := hN
          have hth : cv + (0 - cv) * rc ≤ kSilenceThreshold := by
            have heq : cv + (0 - cv) * rc = cv * (1 - rc) := by ring
            rw [heq, hrc2]
            have hmul : cv * (1 - e'.releaseCoeff) ≤ cv * 1 :=
              mul_le_mul_of_nonneg_left (le_of_lt hr1) hwpos
            rw [mul_one] at hmul
            have hfin : cv * (1 - e'.releaseCoeff) ≤ 1 / 1000 :=
              le_trans hmul (le_of_lt hwlt)
            simpa [kSilenceThreshold] using hfin
          rw [ADSREnvelope.process_release, if_pos hth]
          exact ⟨rfl, rfl⟩
  refine ⟨N + 1, ?_⟩
  intro n hn
  obtain ⟨m, hm⟩ := Nat.exists_eq_add_of_le hn
  have hn' : n = m + (N + 1) := by omega
  have hadd : e'.processIter n = (e'.processIter (N + 1)).processIter m := by
    rw [hn']
    exact ADSREnvelope.processIter_add m (N + 1) e'
  rw [hadd]
  exact ADSREnvelope.idle_stays m (e'.processIter (N + 1)) hbase.1 hbase.2

/-- Witness for C4: an envelope releasing from value 1 with a 0.3 s release
time at 44.1 kHz. -/
theorem release_reaches_idle_witness :
    ((0 : ℝ) < 44100
      ∧ (ADSREnvelope.mk Stage.Release (1 : ℝ) (1 / 100) (1 / 100) (1 / 100)
          (7 / 10) 44100).stage = Stage.Release
      ∧ (0 : ℝ) ≤ 1 ∧ (1 : ℝ) ≤ 1)
    ∧ (∃ N : ℕ, ∀ n : ℕ, N ≤ n →
        (((ADSREnvelope.mk Stage.Release (1 : ℝ) (1 / 100) (1 / 100) (1 / 100)
            (7 / 10) 44100).setRelease Real.exp (3 / 10)).processIter n).stage
          = Stage.Idle
        ∧ (((ADSREnvelope.mk Stage.Release (1 : ℝ) (1 / 100) (1 / 100) (1 / 100)
            (7 / 10) 44100).setRelease Real.exp (3 / 10)).processIter n).currentValue
          = 0) :=
  ⟨⟨by norm_num, rfl, by norm_num, le_refl 1⟩,
   release_reaches_idle
     (ADSREnvelope.mk Stage.Release 1 (1 / 100) (1 / 100) (1 / 100) (7 / 10) 44100)
     (3 / 10) (by norm_num) rfl (by norm_num) (le_refl 1)⟩

/-- Phase 1 captures exactly the active pool indices in index order, and
submits one batch entry per active voice. -/
theorem procPhase1Aux_spec [LinearOrderedField α] [FloorRing α]
    (numSamples : ℕ) (sr : α) :
    ∀ (l : List (Fin kMaxVoices)) (vs : Fin kMaxVoices → KawaiiVoice α), l.Nodup →
      (procPhase1Aux numSamples sr l vs).2.1
          = l.filter (fun v => (vs v).isActive)
      ∧ (procPhase1Aux numSamples sr l vs).1.length
          = (l.filter (fun v => (vs v).isActive)).length := by
  intro l
  induction l with
  | nil => intro vs _; exact ⟨rfl, rfl⟩
  | cons v rest ih =>
      intro vs hnd
      obtain ⟨hv, hnd'⟩ := List.nodup_cons.mp hnd
      by_cases ha : (vs v).isActive = true
      · have hupd : ∀ w ∈ rest,
            ((Function.update vs v ((vs v).phase1 numSamples sr).2) w).isActive
              = (vs w).isActive := by
          intro w hw
          rw [Function.update_noteq (fun hwv : w = v => hv (hwv ▸ hw))]
        have ihh := ih (Function.update vs v ((vs v).phase1 numSamples sr).2) hnd'
        unfold procPhase1Aux
        rw [if_pos ha]
        constructor
        · show v :: (procPhase1Aux numSamples sr rest
              (Function.update vs v ((vs v).phase1 numSamples sr).2)).2.1
            = List.filter (fun w => (vs w).isActive) (v :: rest)
          rw [@List.filter_cons_of_pos _ (fun w => (vs w).isActive) v rest ha,
            ihh.1, List.filter_congr hupd]
        · show (((vs v).phase1 numSamples sr).1 :: (procPhase1Aux numSamples sr rest
              (Function.update vs v ((vs v).phase1 numSamples sr).2)).1).length
            = (List.filter (fun w => (vs w).isActive) (v :: rest)).length
          rw [@List.filter_cons_of_pos _ (fun w => (vs w).isActive) v rest ha,
            List.length_cons, List.length_cons, ihh.2, List.filter_congr hupd]
      · have ihh := ih vs hnd'
        unfold procPhase1Aux
        rw [if_neg ha]
        constructor
        · show (procPhase1Aux numSamples sr rest vs).2.1
            = List.filter (fun w => (vs w).isActive) (v :: rest)
          rw [@List.filter_cons_of_neg _ (fun w => (vs w).isActive) v rest
            (by simpa using ha), ihh.1]
        · show (procPhase1Aux numSamples sr rest vs).1.length
            = (List.filter (fun w => (vs w).isActive) (v :: rest)).length
          rw [@List.filter_cons_of_neg _ (fun w => (vs w).isActive) v rest
            (by simpa using ha), ihh.2]

/-- `procPhase1` captures `activeIndices` and submits that many voices. -/
theorem procPhase1_map [LinearOrderedField α] [FloorRing α] (numSamples : ℕ)
    (sr : α) (voices : Fin kMaxVoices → KawaiiVoice α) :
    (procPhase1 numSamples sr voices).2.1 = activeIndices voices
    ∧ (procPhase1 numSamples sr voices).1.length = (activeIndices voices).length :=
  procPhase1Aux_spec numSamples sr (List.finRange kMaxVoices) voices
    (List.nodup_finRange kMaxVoices)

/-- The routing trace of Phase 3 is the saved map looked up at each previous
GPU voice slot, independent of current voice state and buffers. -/
theorem procPhase3Aux_routed [LinearOrderedField α] (M : MathFns α)
    (numChannels : ℕ) (masterVol : α) (prevOut : List (List α))
    (totalSamples : ℕ) (pmap : List (Fin kMaxVoices)) :
    ∀ (idxs : List ℕ) (vs : Fin kMaxVoices → KawaiiVoice α) (out : Buffers α),
      (procPhase3Aux M numChannels masterVol prevOut totalSamples pmap idxs vs out).2.2
        = idxs.map (fun i => pmap.getD i ⟨0, by decide⟩) := by
  intro idxs
  induction idxs with
  | nil => intro vs out; rfl
  | cons i rest ih =>
      intro vs out
      show (pmap.getD i ⟨0, by decide⟩) :: (procPhase3Aux M numChannels masterVol
          prevOut totalSamples pmap rest _ _).2.2
        = (pmap.getD i ⟨0, by decide⟩) :: rest.map (fun j => pmap.getD j ⟨0, by decide⟩)
      rw [ih]

/-- Reading a whole list back by position reproduces the list. -/
theorem range_map_getD {β : Type} (l : List β) (d : β) :
    (List.range l.length).map (fun i => l.getD i d) = l := by
  induction l with
  | nil => rfl
  | cons x xs ih =>
      rw [List.length_cons, List.range_succ_eq_map, List.map_cons, List.map_map]
      rw [show ((fun i => (x :: xs).getD i d) ∘ Nat.succ) = (fun i => xs.getD i d)
        from rfl]
      rw [ih]
      rfl

/-- After any `processBlockGPU` call, the state's saved `prevGpuVoiceMap` is
the map captured in THIS call's Phase 1: the pool indices active at entry. -/
theorem processBlockGPU_saves_map [LinearOrderedField α] [FloorRing α]
    (M : MathFns α) (kernel : List (VoiceSub α) → ℕ → List (List α))
    (numChannels numSamples : ℕ) (masterVol : α) (out : Buffers α)
    (s : KawaiiProcessorState α) :
    (processBlockGPU M kernel numChannels numSamples masterVol out s).2.prevGpuVoiceMap
      = activeIndices s.voices := by
  show (procPhase1 numSamples s.sampleRate s.voices).2.1 = activeIndices s.voices
  exact (procPhase1_map numSamples s.sampleRate s.voices).1

/-- After any `processBlockGPU` call, the adapter holds the just-submitted
batch: one GPU voice slot per voice active at entry, with this block's sample
count. -/
theorem processBlockGPU_pending [LinearOrderedField α] [FloorRing α]
    (M : MathFns α) (kernel : List (VoiceSub α) → ℕ → List (List α))
    (numChannels numSamples : ℕ) (masterVol : α) (out : Buffers α)
    (s : KawaiiProcessorState α) :
    (processBlockGPU M kernel numChannels numSamples masterVol out s).2.metal.pending
      = some { out := kernel (procPhase1 numSamples s.sampleRate s.voices).1 numSamples
               numVoices := (procPhase1 numSamples s.sampleRate s.voices).1.length
               numSamples := numSamples } :=
  rfl

/-- When the adapter holds a nonempty previous batch, the call routes exactly
the slots `0, …, prevNumVoices − 1` through the INCOMING state's saved
`prevGpuVoiceMap` — the current block's voice activity plays no part. -/
theorem processBlockGPU_routed [LinearOrderedField α] [FloorRing α]
    (M : MathFns α) (kernel : List (VoiceSub α) → ℕ → List (List α))
    (numChannels numSamples : ℕ) (masterVol : α) (out : Buffers α)
    (s : KawaiiProcessorState α) (pb : GPUPending α)
    (hp : s.metal.pending = some pb) (h1 : 0 < pb.numVoices)
    (h2 : 0 < pb.numSamples) :
    (processBlockGPU M kernel numChannels numSamples masterVol out s).1.2
      = (List.range pb.numVoices).map
          (fun i => s.prevGpuVoiceMap.getD i ⟨0, by decide⟩) := by
  simp only [processBlockGPU, MetalSineBank.processBlock, hp]
  rw [if_pos ⟨h1, h2⟩]
  exact procPhase3Aux_routed M numChannels masterVol pb.out
    (min pb.numSamples numSamples) s.prevGpuVoiceMap (List.range pb.numVoices) _ _

/-- C1: across two consecutive `processBlockGPU` calls, the second call routes
the previous block's per-voice GPU results using the voice-slot↦pool-index
mapping captured when that block was submitted (the voices active at the
FIRST call's entry), not the second block's voice activity; the mapping the
second call itself captures shows up only in its outgoing state, saved for
the call after.  (In this functional embedding, "saved only after filtering"
is exactly that the routing trace reads the incoming state's map while the
returned state carries the newly captured one.) -/
theorem gpu_routing_uses_prev_map [LinearOrderedField α] [FloorRing α]
    (M : MathFns α) (kernel : List (VoiceSub α) → ℕ → List (List α))
    (nc1 ns1 nc2 ns2 : ℕ) (mv1 mv2 : α) (out1 out2 : Buffers α)
    (s0 : KawaiiProcessorState α) (hns1 : 0 < ns1)
    (hact : 0 < (activeIndices s0.voices).length) :
    (processBlockGPU M kernel nc1 ns1 mv1 out1 s0).2.prevGpuVoiceMap
      = activeIndices s0.voices
    ∧ (processBlockGPU M kernel nc2 ns2 mv2 out2
        (processBlockGPU M kernel nc1 ns1 mv1 out1 s0).2).1.2
      = activeIndices s0.voices
    ∧ (processBlockGPU M kernel nc2 ns2 mv2 out2
        (processBlockGPU M kernel nc1 ns1 mv1 out1 s0).2).2.prevGpuVoiceMap
      = activeIndices (processBlockGPU M kernel nc1 ns1 mv1 out1 s0).2.voices := by
  refine ⟨processBlockGPU_saves_map M kernel nc1 ns1 mv1 out1 s0, ?_,
    processBlockGPU_saves_map M kernel nc2 ns2 mv2 out2 _⟩
  have hlen : (procPhase1 ns1 s0.sampleRate s0.voices).1.length
      = (activeIndices s0.voices).length :=
    (procPhase1_map ns1 s0.sampleRate s0.voices).2
  have hp := processBlockGPU_pending M kernel nc1 ns1 mv1 out1 s0
  rw [processBlockGPU_routed M kernel nc2 ns2 mv2 out2 _ _ hp
    (by simpa [hlen] using hact) hns1]
  rw [processBlockGPU_saves_map M kernel nc1 ns1 mv1 out1 s0]
  show (List.range ((procPhase1 ns1 s0.sampleRate s0.voices).1.length)).map
      (fun i => (activeIndices s0.voices).getD i ⟨0, by decide⟩)
    = activeIndices s0.voices
  rw [hlen]
  exact range_map_getD (activeIndices s0.voices) ⟨0, by decide⟩

/-- Witness for C1 on an all-active pool, blocks of 8 samples. -/
theorem gpu_routing_uses_prev_map_witness :
    ((0 : ℕ) < 8 ∧ 0 < (activeIndices sAct.voices).length)
    ∧ ((processBlockGPU Mq (fun _ _ => []) 2 8 1 (fun _ _ => 0) sAct).2.prevGpuVoiceMap
        = activeIndices sAct.voices
      ∧ (processBlockGPU Mq (fun _ _ => []) 2 4 1 (fun _ _ => 0)
          (processBlockGPU Mq (fun _ _ => []) 2 8 1 (fun _ _ => 0) sAct).2).1.2
        = activeIndices sAct.voices
      ∧ (processBlockGPU Mq (fun _ _ => []) 2 4 1 (fun _ _ => 0)
          (processBlockGPU Mq (fun _ _ => []) 2 8 1 (fun _ _ => 0) sAct).2).2.prevGpuVoiceMap
        = activeIndices
            (processBlockGPU Mq (fun _ _ => []) 2 8 1 (fun _ _ => 0) sAct).2.voices) :=
  ⟨⟨by decide, by decide⟩,
   gpu_routing_uses_prev_map Mq (fun _ _ => []) 2 8 2 4 1 1 (fun _ _ => 0)
     (fun _ _ => 0) sAct (by decide) (by decide)⟩

end Kawaii
